import Mathlib

/-!
Verification of the wargame turn orchestrator and combat engines.

This file gives a shallow embedding, in Lean 4, of the parts of the
repository that the specification claims talk about:

  - engine/combat/base.py   : shared primitives (rng, determine_result)
  - engine/units.py         : Unit state model (take_losses, recover)
  - engine/combat/missiles.py : missile strike and interception
  - engine/combat/air.py    : air strike resolution
  - engine/turn.py          : turn orchestration, SAM layering, victory points

Machine reals from Python are modelled as rationals. The Python
random.Random source is modelled as an explicit stream of rational draws
(a function from Nat to Rat together with a cursor); every theorem about
randomised code quantifies over the whole stream.
-/

namespace Wargame

/-- Python max on two rationals, written out so that it evaluates by
kernel reduction (the Mathlib lattice max on Rat does not). -/
def pyMax (a b : ℚ) : ℚ := if a ≤ b then b else a

/-- Python min on two rationals, written out so that it evaluates by
kernel reduction. -/
def pyMin (a b : ℚ) : ℚ := if a ≤ b then a else b

theorem pyMax_eq (a b : ℚ) : pyMax a b = max a b := by
  unfold pyMax
  split
  · exact (max_eq_right (by assumption)).symm
  · exact (max_eq_left (le_of_not_le (by assumption))).symm

theorem pyMin_eq (a b : ℚ) : pyMin a b = min a b := by
  unfold pyMin
  split
  · exact (min_eq_left (by assumption)).symm
  · exact (min_eq_right (le_of_not_le (by assumption))).symm

/-- ASCII lowercase of one character, written so that it evaluates by
kernel reduction (String.toLower does not). -/
def charLower (c : Char) : Char :=
  if 65 ≤ c.toNat ∧ c.toNat ≤ 90 then Char.ofNat (c.toNat + 32) else c

/-- Python str.lower() on the ASCII identifiers this engine uses. -/
def pyLower (s : String) : String := String.mk (s.data.map charLower)

/-- Model of the python random.Random source of base.CombatResolver: a
stream of draws plus a cursor. Each call to random() consumes one draw. -/
structure RNG where
  g : Nat → ℚ
  idx : Nat

/-- One call of rng.random(): returns the next draw and advances. -/
def RNG.random (r : RNG) : ℚ × RNG :=
  (r.g r.idx, { r with idx := r.idx + 1 })

/-- Python rng.uniform(a, b) = a + (b - a) * random(). -/
def RNG.uniform (r : RNG) (a b : ℚ) : ℚ × RNG :=
  let (v, r1) := r.random
  (a + (b - a) * v, r1)

/-- CombatResolver.hit_check: draw and compare against the hit chance. -/
def hitCheck (r : RNG) (p : ℚ) : Bool × RNG :=
  let (v, r1) := r.random
  (v < p, r1)

/-- CombatResolver.roll: base * (1 + uniform(-variance, variance)). -/
def roll (r : RNG) (base variance : ℚ) : ℚ × RNG :=
  let (v, r1) := r.uniform (-variance) variance
  (base * (1 + v), r1)

/-- The six outcome tiers of combat/base.py CombatResult. -/
inductive CombatResult where
  | decisive_victory
  | victory
  | marginal
  | stalemate
  | defeat
  | decisive_defeat
  deriving DecidableEq, Repr

/-- CombatResolver.determine_result from combat/base.py: the ratio is
attacker_score / max(1, defender_score), then fixed thresholds. -/
def determine_result (attacker_score defender_score : ℚ) : CombatResult :=
  let ratio := attacker_score / pyMax 1 defender_score
  if ratio ≥ 3 then CombatResult.decisive_victory
  else if ratio ≥ 3/2 then CombatResult.victory
  else if ratio ≥ 11/10 then CombatResult.marginal
  else if ratio ≥ 9/10 then CombatResult.stalemate
  else if ratio ≥ 67/100 then CombatResult.defeat
  else CombatResult.decisive_defeat

/-- Classifier that follows the words of the spec claim: the ratio is the
plain quotient attacker_score / defender_score (no clamping of the
denominator). Used only to compare the claim against the source. -/
def determine_result_spec (attacker_score defender_score : ℚ) : CombatResult :=
  let ratio := attacker_score / defender_score
  if ratio ≥ 3 then CombatResult.decisive_victory
  else if ratio ≥ 3/2 then CombatResult.victory
  else if ratio ≥ 11/10 then CombatResult.marginal
  else if ratio ≥ 9/10 then CombatResult.stalemate
  else if ratio ≥ 67/100 then CombatResult.defeat
  else CombatResult.decisive_defeat

/-! Unit state model, engine/units.py. -/

/-- UnitStatus enumeration from engine/units.py. -/
inductive UnitStatus where
  | ready
  | engaged
  | damaged
  | retreating
  | destroyed
  | reloading
  | repairing
  | in_transit
  deriving DecidableEq, Repr

/-- UnitCategory enumeration from engine/units.py. -/
inductive UnitCategory where
  | aircraft
  | ground
  | artillery
  | helicopter
  | drone
  | missile
  | air_defense
  | special_forces
  | isr
  deriving DecidableEq, Repr

/-- Runtime state block of a unit (engine/units.py UnitState). Integer
fields are Python ints, percentage fields are Python floats. -/
structure UnitState where
  strength_current : Int
  strength_max : Int
  organization : ℚ
  morale : ℚ
  supply_level : ℚ
  fuel : ℚ
  dug_in : Int
  suppression : ℚ
  last_combat_turn : Int
  deriving DecidableEq, Repr

/-- Specialised fields of a MissileBattery (engine/units.py). -/
structure Battery where
  missile_type : String
  missiles_remaining : Int
  reload_time_turns : Int
  turns_until_reload : Int
  deriving DecidableEq, Repr

/-- The slice of the free form type_data dict of a unit that the
orchestrator and the combat engines read: the protecting list and the
missiles_available count of air-defense entries, and the air stats of a
squadron. Optional fields model dict gets with defaults. -/
structure TypeData where
  protecting : List String
  missiles_available : Option Int
  weapons : List String
  ew_suite : Option ℚ
  stealth : Option ℚ
  ground_attack : Option ℚ
  radar : Option ℚ
  deriving DecidableEq, Repr

/-- A military unit (engine/units.py Unit). A unit is a missile battery
exactly when the battery field is present, which models the python
hasattr checks against MissileBattery methods. -/
structure Unit where
  id : String
  faction : String
  category : UnitCategory
  unit_type : String
  state : UnitState
  status : UnitStatus
  type_data : TypeData
  battery : Option Battery
  deriving DecidableEq, Repr

/-- Unit.is_combat_effective from engine/units.py. -/
def Unit.is_combat_effective (u : Unit) : Bool :=
  if u.status = UnitStatus.destroyed ∨ u.status = UnitStatus.retreating then false
  else if u.state.strength_current ≤ 0 then false
  else if u.state.organization < 20 then false
  else true

/-- Unit.take_losses from engine/units.py: clamp strength and organization
at zero, morale penalty proportional to the loss ratio, rout check, then
destroyed check. -/
def Unit.take_losses (u : Unit) (casualties : Int) (organization_loss : ℚ) : Unit :=
  let strength1 := max 0 (u.state.strength_current - casualties)
  let org1 := pyMax 0 (u.state.organization - organization_loss)
  let loss_ratio : ℚ := (casualties : ℚ) / pyMax 1 (u.state.strength_max : ℚ)
  let morale1 := pyMax 0 (u.state.morale - loss_ratio * 20)
  let status1 := if org1 < 15 ∨ morale1 < 15 then UnitStatus.retreating else u.status
  let status2 := if strength1 ≤ 0 then UnitStatus.destroyed else status1
  { u with
      state := { u.state with
        strength_current := strength1
        organization := org1
        morale := morale1 }
      status := status2 }

/-- Unit.recover from engine/units.py: suppression fades, organization
recovers when out of combat, morale recovers toward 50. The status field
is never written. -/
def Unit.recover (u : Unit) (turn_number : Int) : Unit :=
  let sup1 := pyMax 0 (u.state.suppression - 20)
  let org1 :=
    if u.state.last_combat_turn < turn_number - 1 then
      pyMin 100 (u.state.organization + 5)
    else u.state.organization
  let mor1 :=
    if u.state.morale < 50 then pyMin 50 (u.state.morale + 3) else u.state.morale
  { u with state := { u.state with suppression := sup1, organization := org1, morale := mor1 } }

/-! Missile combat, engine/combat/missiles.py. -/

/-- A defending SAM entry as built by TurnManager and consumed by the
missile and air resolvers. The dict keys type, rounds, ready are always
present on entries built by the orchestrator; the effectiveness key is
absent there, so it is an Option read with the air resolver default. -/
structure SamEntry where
  type : String
  rounds : Int
  ready : Bool
  effectiveness : Option ℚ
  deriving DecidableEq, Repr

/-- Stats row of MissileCombat.MISSILE_STATS. -/
structure MissileStats where
  accuracy : ℚ
  damage : ℚ
  speed : String
  detectability : ℚ
  deriving DecidableEq, Repr

/-- The MISSILE_STATS table of engine/combat/missiles.py. -/
def MISSILE_STATS : String → Option MissileStats
  | "brahmos" => some ⟨90, 95, "supersonic", 60⟩
  | "nirbhay" => some ⟨85, 80, "subsonic", 40⟩
  | "babur" => some ⟨85, 75, "subsonic", 35⟩
  | "raad" => some ⟨80, 70, "subsonic", 30⟩
  | "prithvi" => some ⟨70, 90, "ballistic", 80⟩
  | "pralay" => some ⟨85, 85, "quasi_ballistic", 70⟩
  | "shaheen" => some ⟨75, 90, "ballistic", 85⟩
  | "ghaznavi" => some ⟨70, 85, "ballistic", 80⟩
  | _ => none

/-- Default stats used by resolve_strike for unknown missile types. -/
def missileDefaultStats : MissileStats := ⟨75, 70, "subsonic", 50⟩

/-- The nested SAM_EFFECTIVENESS dict of engine/combat/missiles.py. Both
an unknown SAM type and an unknown speed class fall back to the 0.5
default of the inner dict get. -/
def samEffectiveness (samType missileSpeed : String) : ℚ :=
  match samType, missileSpeed with
  | "s400", "subsonic" => 95/100
  | "s400", "supersonic" => 35/100
  | "s400", "quasi_ballistic" => 45/100
  | "s400", "ballistic" => 40/100
  | "barak8", "subsonic" => 88/100
  | "barak8", "supersonic" => 10/100
  | "barak8", "quasi_ballistic" => 30/100
  | "barak8", "ballistic" => 25/100
  | "mrsam", "subsonic" => 88/100
  | "mrsam", "supersonic" => 10/100
  | "mrsam", "quasi_ballistic" => 30/100
  | "mrsam", "ballistic" => 25/100
  | "akash", "subsonic" => 75/100
  | "akash", "supersonic" => 3/100
  | "akash", "quasi_ballistic" => 12/100
  | "akash", "ballistic" => 5/100
  | "spyder", "subsonic" => 80/100
  | "spyder", "supersonic" => 3/100
  | "spyder", "quasi_ballistic" => 8/100
  | "spyder", "ballistic" => 3/100
  | "hq9", "subsonic" => 80/100
  | "hq9", "supersonic" => 0
  | "hq9", "quasi_ballistic" => 20/100
  | "hq9", "ballistic" => 15/100
  | "hq16", "subsonic" => 70/100
  | "hq16", "supersonic" => 0
  | "hq16", "quasi_ballistic" => 8/100
  | "hq16", "ballistic" => 5/100
  | "spada2000", "subsonic" => 65/100
  | "spada2000", "supersonic" => 0
  | "spada2000", "quasi_ballistic" => 3/100
  | "spada2000", "ballistic" => 1/100
  | "fm90", "subsonic" => 55/100
  | "fm90", "supersonic" => 0
  | "fm90", "quasi_ballistic" => 1/100
  | "fm90", "ballistic" => 1/100
  | _, _ => 1/2

/-- A planned missile strike (MissileStrike dataclass). -/
structure MissileStrike where
  battery_id : String
  target_id : String
  target_type : String
  missiles_fired : Int
  missile_type : String
  deriving DecidableEq, Repr

/-- Result of MissileCombat._resolve_interception. -/
structure InterceptionResult where
  missiles_incoming : Int
  missiles_intercepted : Int
  missiles_leaked : Int
  interceptor_rounds_used : Int
  deriving DecidableEq, Repr

/-- The inner interception loop of _resolve_interception: iterate once per
missile present at entry to this SAM, spend two rounds per attempt, and
on a hit move one missile from remaining to intercepted. Returns
(remaining, (intercepted, rng)). -/
def interceptInner (p : ℚ) : Nat → Int → Int → Int → RNG → Int × Int × RNG
  | 0, _, remaining, intercepted, r => (remaining, intercepted, r)
  | n + 1, roundsToUse, remaining, intercepted, r =>
    if roundsToUse < 2 then (remaining, intercepted, r)
    else
      let h := hitCheck r p
      if h.1 then interceptInner p n (roundsToUse - 2) (remaining - 1) (intercepted + 1) h.2
      else interceptInner p n (roundsToUse - 2) remaining intercepted h.2

/-- The outer loop of _resolve_interception over the defending SAM list:
break when no missiles remain, skip SAMs that are not ready or out of
rounds, otherwise run the inner loop with the effective intercept
probability. Returns (remaining, (intercepted, (rounds_used, rng))). -/
def interceptSams (speed : String) (detectability ewModifier : ℚ) :
    List SamEntry → Int → Int → Int → RNG → Int × Int × Int × RNG
  | [], remaining, intercepted, roundsUsed, r => (remaining, intercepted, roundsUsed, r)
  | sam :: rest, remaining, intercepted, roundsUsed, r =>
    if remaining ≤ 0 then (remaining, intercepted, roundsUsed, r)
    else
      let samType := pyLower sam.type
      if ¬ sam.ready ∨ sam.rounds ≤ 0 then
        interceptSams speed detectability ewModifier rest remaining intercepted roundsUsed r
      else
        let baseIntercept := samEffectiveness samType speed
        let detectChance := pyMin 1 (detectability * (3/2))
        let effectiveIntercept := baseIntercept * ewModifier * detectChance
        let roundsToUse := min sam.rounds (remaining * 2)
        let inner := interceptInner effectiveIntercept remaining.toNat roundsToUse remaining intercepted r
        interceptSams speed detectability ewModifier rest inner.1 inner.2.1
          (roundsUsed + roundsToUse) inner.2.2

/-- MissileCombat._resolve_interception. -/
def resolveInterception (missiles_incoming : Int) (stats : MissileStats)
    (defending_sams : List SamEntry) (ew_modifier : ℚ) (r : RNG) :
    InterceptionResult × RNG :=
  let detectability := stats.detectability / 100
  let out := interceptSams stats.speed detectability ew_modifier defending_sams
    missiles_incoming 0 0 r
  ({ missiles_incoming := missiles_incoming
     missiles_intercepted := out.2.1
     missiles_leaked := out.1
     interceptor_rounds_used := out.2.2.1 }, out.2.2.2)

/-- Universal combat report (combat/base.py CombatReport). Loss maps are
assoc lists from field name to numeric value; the human readable notes
list of formatted strings is not modelled. -/
structure CombatReport where
  attacker_id : String
  defender_id : String
  turn : Int
  phase : String
  result : CombatResult
  attacker_losses : List (String × ℚ)
  defender_losses : List (String × ℚ)
  attacker_damage : ℚ
  defender_damage : ℚ
  deriving DecidableEq, Repr

/-- Phase 2 of MissileCombat.resolve_strike: each leaked missile rolls to
hit (accuracy times weather) and on a hit rolls damage with variance
0.15. Returns (hits, (total_damage, rng)). -/
def strikeHitsLoop (accuracy damage weather : ℚ) : Nat → Int → ℚ → RNG → Int × ℚ × RNG
  | 0, hits, total, r => (hits, total, r)
  | n + 1, hits, total, r =>
    let hit_chance := accuracy / 100 * weather
    let h := hitCheck r hit_chance
    if h.1 then
      let d := roll h.2 damage (15/100)
      strikeHitsLoop accuracy damage weather n (hits + 1) (total + d.1) d.2
    else strikeHitsLoop accuracy damage weather n hits total h.2

/-- The five tier outcome mapping at the end of MissileCombat.resolve_strike. -/
def missileStrikeResult (damage_ratio : ℚ) (hits : Int) : CombatResult :=
  if damage_ratio ≥ 3/2 then CombatResult.decisive_victory
  else if damage_ratio ≥ 1 then CombatResult.victory
  else if damage_ratio ≥ 1/2 then CombatResult.marginal
  else if hits > 0 then CombatResult.stalemate
  else CombatResult.defeat

/-- MissileCombat.resolve_strike: table lookup with default stats, air
defense interception, then per missile hit and damage rolls, classified
by total damage over max(1, hardness). -/
def MissileCombat.resolve_strike (strike : MissileStrike) (defending_sams : List SamEntry)
    (target_hardness : ℚ) (weather_modifier ew_modifier : ℚ) (r : RNG) :
    CombatReport × RNG :=
  let missile_stats := (MISSILE_STATS (pyLower strike.missile_type)).getD missileDefaultStats
  let inter := resolveInterception strike.missiles_fired missile_stats defending_sams ew_modifier r
  let interception := inter.1
  let missiles_through := interception.missiles_leaked
  let phase2 := strikeHitsLoop missile_stats.accuracy missile_stats.damage weather_modifier
    missiles_through.toNat 0 0 inter.2
  let hits := phase2.1
  let total_damage := phase2.2.1
  let damage_ratio := total_damage / pyMax 1 target_hardness
  let result := missileStrikeResult damage_ratio hits
  ({ attacker_id := strike.battery_id
     defender_id := strike.target_id
     turn := 0
     phase := "missiles"
     result := result
     attacker_losses := [("missiles_fired", (strike.missiles_fired : ℚ))]
     defender_losses := [("missiles_intercepted", (interception.missiles_intercepted : ℚ)),
                         ("damage_taken", total_damage)]
     attacker_damage := 0
     defender_damage := total_damage }, phase2.2.2)

/-! Turn orchestration, engine/turn.py. -/

/-- The Phase enumeration of engine/turn.py. -/
inductive Phase where
  | intelligence
  | missiles
  | electronic_warfare
  | air
  | drones
  | artillery
  | helicopters
  | ground
  | special_forces
  | logistics
  | recovery
  deriving DecidableEq, Repr

/-- The string value of each phase (the python enum value, used as the
key of the phase_complete dict). -/
def Phase.value : Phase → String
  | .intelligence => "intelligence"
  | .missiles => "missiles"
  | .electronic_warfare => "ew"
  | .air => "air"
  | .drones => "drones"
  | .artillery => "artillery"
  | .helicopters => "helicopters"
  | .ground => "ground"
  | .special_forces => "special_forces"
  | .logistics => "logistics"
  | .recovery => "recovery"

/-- TurnManager.PHASES: the fixed ordered phase list. -/
def PHASES : List Phase :=
  [Phase.intelligence, Phase.missiles, Phase.electronic_warfare, Phase.air,
   Phase.drones, Phase.artillery, Phase.helicopters, Phase.ground,
   Phase.special_forces, Phase.logistics, Phase.recovery]

/-- Turn record (engine/turn.py TurnState), with the fields the claims
talk about: the current phase, the per phase completion dict (an assoc
list keyed by the phase string value) and the accumulated combat
reports. The report type is a parameter because each phase resolver
produces its own dict shaped reports. -/
structure TurnRecord (R : Type) where
  current_phase : Phase
  phase_complete : List (String × Bool)
  combat_reports : List R

/-- Pointwise dict update: phase_complete[key] = true. All phase keys are
pre initialised by start_turn, so assignment is an update in place. -/
def setComplete (m : List (String × Bool)) (key : String) : List (String × Bool) :=
  m.map fun kv => if kv.1 = key then (kv.1, true) else kv

/-- The phase_complete dict built in TurnManager.start_turn: every phase
value mapped to False. -/
def initPhaseComplete : List (String × Bool) :=
  PHASES.map fun p => (p.value, false)

/-- The fresh turn record built by TurnManager.start_turn. -/
def startTurn (R : Type) : TurnRecord R :=
  { current_phase := Phase.intelligence
    phase_complete := initPhaseComplete
    combat_reports := [] }

/-- TurnManager.execute_phase: set current_phase, dispatch the phase to
its resolver (modelled as the resolve argument, which threads the shared
mutable engine state sigma and returns the phase reports), mark the
phase complete and extend the report list. -/
def executePhase {σ R : Type} (resolve : Phase → σ → σ × List R)
    (p : Phase) (st : σ × TurnRecord R) : σ × TurnRecord R :=
  let t1 := { st.2 with current_phase := p }
  let out := resolve p st.1
  (out.1,
   { t1 with
      phase_complete := setComplete t1.phase_complete p.value
      combat_reports := t1.combat_reports ++ out.2 })

/-- TurnManager.execute_full_turn: start a turn then run every phase of
PHASES in order. -/
def executeFullTurn {σ R : Type} (resolve : Phase → σ → σ × List R)
    (s0 : σ) : σ × TurnRecord R :=
  PHASES.foldl (fun st p => executePhase resolve p st) (s0, startTurn R)

/-- The report stream produced by dispatching each phase of a list once,
in order, threading the engine state: the expected observable effect of
a full turn. -/
def phaseReportsSeq {σ R : Type} (resolve : Phase → σ → σ × List R) :
    σ → List Phase → List R
  | _, [] => []
  | s, p :: ps => (resolve p s).2 ++ phaseReportsSeq resolve (resolve p s).1 ps

/-! Layered SAM selection, TurnManager._get_sams_defending. -/

/-- Substring containment, python needle in haystack for strings. -/
def strContains (haystack needle : String) : Bool :=
  haystack.toList.tails.any fun t => needle.toList.isPrefixOf t

/-- Long range SAM tier of _get_sams_defending. -/
def LONG_RANGE : List String := ["s400", "hq9"]

/-- Medium range SAM tier of _get_sams_defending. -/
def MEDIUM_RANGE : List String := ["barak8", "mrsam", "akash", "hq16"]

/-- Short range SAM tier of _get_sams_defending. -/
def SHORT_RANGE : List String := ["spyder", "spada2000", "fm90"]

/-- Python int() truncation toward zero on a rational. -/
def pyInt (q : ℚ) : Int :=
  if 0 ≤ q then ⌊q⌋ else -⌊-q⌋

/-- The sam_entry dict built per air defense unit in _get_sams_defending:
type, rounds (missiles_available or the truncated supply level) and
readiness. No effectiveness key is set. -/
def samEntryOf (u : Unit) : SamEntry :=
  { type := u.unit_type
    rounds := u.type_data.missiles_available.getD (pyInt u.state.supply_level)
    ready := u.status = UnitStatus.ready
    effectiveness := none }

/-- The is_protecting test of _get_sams_defending: exact membership of
the target id in the protecting list, or substring containment in any
entry of it. -/
def isProtecting (u : Unit) (target_id : String) : Bool :=
  u.type_data.protecting.contains target_id ∨
    u.type_data.protecting.any fun p => strContains p target_id

/-- The classification pass of _get_sams_defending: walk the air defense
units of the faction that are combat effective and put each sam entry in
exactly one of the four buckets (protecting, long, medium, short).
Units of other factions, other categories, or not combat effective are
skipped; so is a unit in none of the three range tiers and not
protecting. Returns (protecting, long, medium, short). -/
def classifySams (target_id faction : String) :
    List Unit → List SamEntry × List SamEntry × List SamEntry × List SamEntry
  | [] => ([], [], [], [])
  | u :: rest =>
    let tail := classifySams target_id faction rest
    if u.category = UnitCategory.air_defense ∧ u.faction = faction ∧ u.is_combat_effective then
      let entry := samEntryOf u
      let samType := pyLower u.unit_type
      if isProtecting u target_id then
        (entry :: tail.1, tail.2.1, tail.2.2.1, tail.2.2.2)
      else if LONG_RANGE.contains samType then
        (tail.1, entry :: tail.2.1, tail.2.2.1, tail.2.2.2)
      else if MEDIUM_RANGE.contains samType then
        (tail.1, tail.2.1, entry :: tail.2.2.1, tail.2.2.2)
      else if SHORT_RANGE.contains samType then
        (tail.1, tail.2.1, tail.2.2.1, entry :: tail.2.2.2)
      else tail
    else tail

/-- The final dedup by system type of _get_sams_defending: keep the first
entry of each type. -/
def dedupByType (seen : List String) : List SamEntry → List SamEntry
  | [] => []
  | s :: rest =>
    if seen.contains s.type then dedupByType seen rest
    else s :: dedupByType (s.type :: seen) rest

/-- TurnManager._get_sams_defending: every directly protecting SAM, plus
the first long range and the first medium range entry, deduplicated by
type; if that is empty, fall back to at most one short range entry. -/
def getSamsDefending (units : List Unit) (target_id faction : String) : List SamEntry :=
  let buckets := classifySams target_id faction units
  let protecting_sams := buckets.1
  let long_range_sams := buckets.2.1
  let medium_range_sams := buckets.2.2.1
  let short_range_sams := buckets.2.2.2
  let result := protecting_sams ++ long_range_sams.take 1 ++ medium_range_sams.take 1
  let deduped := dedupByType [] result
  if deduped ≠ [] then deduped else short_range_sams.take 1

/-! Victory point accounting for destroyed units,
TurnManager._calculate_victory_points (the unit destruction pass) and
the _destroyed_units_counted seen set. -/

/-- The VP_UNIT_DESTROY category weights. -/
def vpUnitDestroy : UnitCategory → Int
  | .aircraft => 5
  | .air_defense => 4
  | .missile => 3
  | .helicopter => 3
  | .drone => 2
  | .artillery => 2
  | .special_forces => 3
  | .ground => 2
  | .isr => 2

/-- The per faction VP totals together with the persistent seen set of
destroyed unit ids already counted. -/
structure VPState where
  counted : List String
  india_vp : Int
  pakistan_vp : Int
  deriving DecidableEq, Repr

/-- The destroyed unit bonus pass at the end of
_calculate_victory_points: for every destroyed unit not yet in the seen
set, add it to the set and award the category weight to the opposing
faction. -/
def calcDestroyedVP (s : VPState) : List Unit → VPState
  | [] => s
  | u :: rest =>
    let s1 :=
      if u.status = UnitStatus.destroyed ∧ ¬ s.counted.contains u.id then
        let vp := vpUnitDestroy u.category
        if u.faction = "india" then
          { s with counted := u.id :: s.counted, pakistan_vp := s.pakistan_vp + vp }
        else
          { s with counted := u.id :: s.counted, india_vp := s.india_vp + vp }
      else s
    calcDestroyedVP s1 rest

/-! Air to air defender cap, TurnManager._resolve_air_to_air. -/

/-- The force preservation constant PAKISTAN_MAX_CAP_AIRCRAFT. -/
def PAKISTAN_MAX_CAP_AIRCRAFT : Int := 12

/-- The aircraft count preparation of _resolve_air_to_air: each mission
dict may name an aircraft count, defaulting to the squadron strength;
then, when India is the attacking faction, the defending (Pakistani)
count is capped at PAKISTAN_MAX_CAP_AIRCRAFT. No cap is applied in the
other direction. Returns (attacker count, defender count). -/
def airToAirCounts (attacker_faction : String)
    (attacker_aircraft : Option Int) (att_squadron_strength : Int)
    (defender_aircraft : Option Int) (def_squadron_strength : Int) : Int × Int :=
  let att_count := attacker_aircraft.getD att_squadron_strength
  let def_count := defender_aircraft.getD def_squadron_strength
  let def_count :=
    if attacker_faction = "india" then min def_count PAKISTAN_MAX_CAP_AIRCRAFT
    else def_count
  (att_count, def_count)

/-! Air strike resolution, engine/combat/air.py resolve_strike. -/

/-- An air mission (AirMission dataclass of combat/air.py). -/
structure AirMission where
  squadron_id : String
  mission_type : String
  aircraft_count : Int
  aircraft_type : String
  target_id : Option String
  deriving DecidableEq, Repr

/-- The STANDOFF_WEAPONS set of AirCombat.resolve_strike. -/
def STANDOFF_WEAPONS : List String :=
  ["scalp", "storm_shadow", "brahmos_air", "kh59", "hammer", "raad", "harpoon"]

/-- Whether the squadron stats list at least one standoff weapon: the
nonempty intersection test of resolve_strike. -/
def hasStandoff (striker_stats : TypeData) : Bool :=
  striker_stats.weapons.any fun w => STANDOFF_WEAPONS.contains w

/-- One SAM battery engaging the strike package: a fixed number of
engagements, each an independent kill roll; every kill removes one
aircraft and counts one loss. Returns (aircraft, (losses, rng)). -/
def samEngageLoop (pk : ℚ) : Nat → Int → Int → RNG → Int × Int × RNG
  | 0, count, losses, r => (count, losses, r)
  | n + 1, count, losses, r =>
    let h := hitCheck r pk
    if h.1 then samEngageLoop pk n (count - 1) (losses + 1) h.2
    else samEngageLoop pk n count losses h.2

/-- The SAM ingress phase of resolve_strike for non standoff strikes:
walk the coverage list in order, break once no aircraft remain, and per
SAM run min(rounds // 2, aircraft) engagements at the per engagement
kill probability. Returns (aircraft, (losses, rng)). -/
def samPhaseAir (striker_stats : TypeData) (weather_modifier : ℚ) :
    List SamEntry → Int → Int → RNG → Int × Int × RNG
  | [], count, losses, r => (count, losses, r)
  | sam :: rest, count, losses, r =>
    if count ≤ 0 then (count, losses, r)
    else
      let sam_effectiveness := sam.effectiveness.getD (3/10)
      let engagements := min (Int.ediv sam.rounds 2) count
      let engagements := min engagements count
      let pk := sam_effectiveness * weather_modifier
        * (1 - striker_stats.ew_suite.getD 50 / 200)
        * (1 - striker_stats.stealth.getD 15 / 200)
      let inner := samEngageLoop pk engagements.toNat count losses r
      samPhaseAir striker_stats weather_modifier rest inner.1 inner.2.1 inner.2.2

/-- Phase 2 of AirCombat.resolve_strike: each surviving aircraft delivers
ordnance with hit chance ground_attack / 100 times weather and a damage
roll at half the ground attack rating with variance 0.25. Returns
(hits, (total_damage, rng)). -/
def airDeliveryLoop (ground_attack weather : ℚ) : Nat → Int → ℚ → RNG → Int × ℚ × RNG
  | 0, hits, total, r => (hits, total, r)
  | n + 1, hits, total, r =>
    let hit_chance := ground_attack / 100 * weather
    let h := hitCheck r hit_chance
    if h.1 then
      let d := roll h.2 (ground_attack * (1/2)) (25/100)
      airDeliveryLoop ground_attack weather n (hits + 1) (total + d.1) d.2
    else airDeliveryLoop ground_attack weather n hits total h.2

/-- The five tier outcome mapping at the end of AirCombat.resolve_strike. -/
def airStrikeResult (effectiveness : ℚ) (hits : Int) : CombatResult :=
  if effectiveness ≥ 3/2 then CombatResult.decisive_victory
  else if effectiveness ≥ 1 then CombatResult.victory
  else if effectiveness ≥ 1/2 then CombatResult.marginal
  else if hits > 0 then CombatResult.stalemate
  else CombatResult.defeat

/-- AirCombat.resolve_strike: strikes with a standoff weapon skip the SAM
ingress phase entirely; others run it over the coverage list. Then the
survivors deliver ordnance and the damage over max(1, target defense)
ratio is classified. The target_type argument is carried but, as in the
source, not read. -/
def AirCombat.resolve_strike (striker : AirMission) (striker_stats : TypeData)
    (_target_type : String) (target_defense : ℚ) (sam_coverage : List SamEntry)
    (weather_modifier : ℚ) (r : RNG) : CombatReport × RNG :=
  let has_standoff := hasStandoff striker_stats
  let phase1 :=
    if ¬ has_standoff then
      samPhaseAir striker_stats weather_modifier sam_coverage striker.aircraft_count 0 r
    else (striker.aircraft_count, 0, r)
  let losses_to_sam := phase1.2.1
  let remaining := striker.aircraft_count - losses_to_sam
  let ground_attack := striker_stats.ground_attack.getD 70
  let phase2 := airDeliveryLoop ground_attack weather_modifier remaining.toNat 0 0 phase1.2.2
  let hits := phase2.1
  let total_damage := phase2.2.1
  let effectiveness := total_damage / pyMax 1 target_defense
  let result := airStrikeResult effectiveness hits
  ({ attacker_id := striker.squadron_id
     defender_id := match striker.target_id with
       | some t => if t = "" then "ground_target" else t
       | none => "ground_target"
     turn := 0
     phase := "air_strike"
     result := result
     attacker_losses := [("aircraft", (losses_to_sam : ℚ))]
     defender_losses := [("damage", total_damage)]
     attacker_damage := 0
     defender_damage := total_damage }, phase2.2.2)

/-! Orchestrator level mission resolution, TurnManager. -/

/-- UnitManager.get_unit: dict lookup by unit id. -/
def getUnit (units : List Unit) (uid : String) : Option Unit :=
  units.find? fun u => u.id = uid

/-- MissileBattery.can_fire, defined on units carrying battery data. -/
def Unit.can_fire (u : Unit) : Bool :=
  match u.battery with
  | none => false
  | some b =>
    if b.missiles_remaining ≤ 0 then false
    else if b.turns_until_reload > 0 then false
    else u.is_combat_effective

/-- The python hasattr check against the can_fire method: true exactly
for missile batteries. -/
def Unit.hasCanFire (u : Unit) : Bool := u.battery.isSome

/-- MissileBattery.fire_missile: decrement inventory by the fired count
capped at what remains and start the reload cooldown. -/
def Unit.fire_missile (u : Unit) (count : Int) : Unit :=
  match u.battery with
  | none => u
  | some b =>
    let fired := min count b.missiles_remaining
    { u with battery := some { b with
        missiles_remaining := b.missiles_remaining - fired
        turns_until_reload := b.reload_time_turns } }

/-- The battery selection of TurnManager._resolve_missile_strike: exact
id lookup first; on a miss, fall back to the first missile category unit
of the firing faction that is a battery able to fire. -/
def selectBattery (units : List Unit) (battery_id faction : String) : Option Unit :=
  match getUnit units battery_id with
  | some b => some b
  | none =>
    let missile_units := units.filter fun u =>
      u.category = UnitCategory.missile ∧ u.faction = faction
    missile_units.find? fun mu => mu.hasCanFire ∧ mu.can_fire

/-- A raw missile strike order dict; optional fields model dict gets with
defaults at the read site. -/
structure MissileOrder where
  battery_id : Option String
  target_id : Option String
  missiles : Option Int
  target_type : Option String
  deriving DecidableEq, Repr

/-- The hardness_map of _resolve_missile_strike (default 60). -/
def missileHardness : String → ℚ
  | "airbase" => 80
  | "sam_site" => 50
  | "radar" => 30
  | "c2" => 70
  | "logistics" => 40
  | "ground_unit" => 40
  | _ => 60

/-- The opposing faction string, as computed inline in TurnManager. -/
def enemyOf (faction : String) : String :=
  if faction = "india" then "pakistan" else "india"

/-- TurnManager._resolve_missile_strike: select the battery (with the
partial match fallback), skip the mission when none can fire, otherwise
clamp the salvo to a minimum of two and the remaining inventory, build
the layered SAM list of the defender, resolve the strike, and apply the
inventory decrement and reload cooldown to the battery. Returns the
report, the updated unit table and the advanced rng, or none when the
mission is skipped. The ew_effects assoc list models
current_ew_effects; weather is the air ops modifier of the map. -/
def resolveMissileStrike (units : List Unit) (strike : MissileOrder) (faction : String)
    (weather : ℚ) (ew_effects : List (String × ℚ)) (turn : Int) (r : RNG) :
    Option (CombatReport × List Unit × RNG) :=
  let battery_id := strike.battery_id.getD ""
  match selectBattery units battery_id faction with
  | none => none
  | some battery =>
    if ¬ (battery.hasCanFire ∧ battery.can_fire) then none
    else
      let target_id := strike.target_id.getD ""
      let missiles0 := max 2 (strike.missiles.getD 2)
      let missiles := min missiles0 ((battery.battery.map Battery.missiles_remaining).getD 0)
      let enemy := enemyOf faction
      let enemy_sams := getSamsDefending units target_id enemy
      let target_type := strike.target_type.getD "ground_unit"
      let target_hardness := missileHardness target_type
      let missile_strike : MissileStrike :=
        { battery_id := battery.id
          target_id := target_id
          target_type := target_type
          missiles_fired := missiles
          missile_type := (battery.battery.map Battery.missile_type).getD "cruise" }
      let ew_modifier := 1 - ((ew_effects.lookup (enemy ++ "_radar_jam")).getD 0)
      let out := MissileCombat.resolve_strike missile_strike enemy_sams target_hardness
        weather ew_modifier r
      let battery1 := battery.fire_missile missiles
      let units1 := units.map fun x => if x.id = battery.id then battery1 else x
      some ({ out.1 with turn := turn }, units1, out.2)

/-- A raw air mission order dict. The python code reads mission_type with
a fallback to the key named type; that second key is modelled as typ. -/
structure AirOrder where
  squadron_id : Option String
  mission_type : Option String
  typ : Option String
  aircraft : Option Int
  target_id : Option String
  target_type : Option String
  target_defense : Option ℚ
  deriving DecidableEq, Repr

/-- TurnManager._resolve_air_strike: a mission whose squadron id is not
in the unit table is skipped with no report and no state change.
Otherwise the strike is resolved against the layered SAM list of the
defender and squadron losses are applied. The report value under the
aircraft key is an integer count, read back with pyInt. -/
def resolveAirStrike (units : List Unit) (mission : AirOrder) (faction : String)
    (weather : ℚ) (turn : Int) (r : RNG) : Option (CombatReport × List Unit × RNG) :=
  let squadron_id := mission.squadron_id.getD ""
  match getUnit units squadron_id with
  | none => none
  | some squadron =>
    let mission_type := mission.mission_type.getD (mission.typ.getD "strike")
    let air_mission : AirMission :=
      { squadron_id := squadron_id
        mission_type := mission_type
        aircraft_count := (mission.aircraft).getD squadron.state.strength_current
        aircraft_type := squadron.unit_type
        target_id := mission.target_id }
    let enemy := enemyOf faction
    let sams := getSamsDefending units (mission.target_id.getD "") enemy
    let target_type :=
      if mission_type = "sead" then "sam_site"
      else if mission_type = "cas" then "ground_unit"
      else mission.target_type.getD "ground"
    let target_defense : ℚ :=
      if mission_type = "sead" then 70
      else if mission_type = "cas" then 40
      else mission.target_defense.getD 50
    let out := AirCombat.resolve_strike air_mission squadron.type_data target_type
      target_defense sams weather r
    let lost := (out.1.attacker_losses.lookup "aircraft").getD 0
    let units1 :=
      if lost > 0 then
        units.map fun x => if x.id = squadron.id then x.take_losses (pyInt lost) 5 else x
      else units
    some ({ out.1 with turn := turn, phase := "air_" ++ mission_type }, units1, out.2)

/-! Theorems. The Batteries Rat arithmetic operations are irreducible by
default; make them semireducible locally so that closed witnesses can be
checked by kernel evaluation. -/

attribute [local semireducible] Rat.mul Rat.inv Rat.sub Rat.add

/-- C3 counterexample: at attacker score 2 and defender score 1/2 the
plain ratio is 4, at or above the 3.0 threshold, yet the source
classifier answers victory, not decisive-victory, because it divides by
max(1, defender score). The spec-literal classifier disagrees with the
source here. -/
theorem determine_result_small_defender :
    (3 : ℚ) ≤ (2 : ℚ) / ((1 : ℚ)/2) ∧
    determine_result 2 (1/2) = CombatResult.victory ∧
    determine_result 2 (1/2) ≠ CombatResult.decisive_victory ∧
    determine_result_spec 2 (1/2) = CombatResult.decisive_victory := by
  refine ⟨by norm_num, by decide, by decide, by decide⟩

/-- C3 (amended): determine_result classifies by the clamped ratio
a / max(1, d) against the fixed thresholds: at least 3 gives
decisive-victory, at least 1.5 victory, at least 1.1 marginal, at least
0.9 stalemate, at least 0.67 defeat, otherwise decisive-defeat. -/
theorem determine_result_tiers (a d : ℚ) :
    (determine_result a d = CombatResult.decisive_victory ↔ 3 ≤ a / max 1 d) ∧
    (determine_result a d = CombatResult.victory ↔
      3/2 ≤ a / max 1 d ∧ a / max 1 d < 3) ∧
    (determine_result a d = CombatResult.marginal ↔
      11/10 ≤ a / max 1 d ∧ a / max 1 d < 3/2) ∧
    (determine_result a d = CombatResult.stalemate ↔
      9/10 ≤ a / max 1 d ∧ a / max 1 d < 11/10) ∧
    (determine_result a d = CombatResult.defeat ↔
      67/100 ≤ a / max 1 d ∧ a / max 1 d < 9/10) ∧
    (determine_result a d = CombatResult.decisive_defeat ↔ a / max 1 d < 67/100) := by
  simp only [determine_result, pyMax_eq, ge_iff_le]
  set r := a / max 1 d with hr
  split_ifs with h1 h2 h3 h4 h5 <;>
    refine ⟨?_, ?_, ?_, ?_, ?_, ?_⟩ <;> simp_all <;> intros <;> linarith

/-- C5: for non-negative casualty counts, take_losses never drives
strength below zero, and (for a unit satisfying the destroyed-implies-
zero-strength state invariant) the resulting status is destroyed exactly
when the resulting strength is zero; recover never writes the status
field, so a destroyed unit never reverts through recovery. -/
theorem take_losses_invariants (u : Unit) (c : Int) (o : ℚ)
    (hc : 0 ≤ c)
    (hinv : u.status = UnitStatus.destroyed → u.state.strength_current ≤ 0) :
    0 ≤ (u.take_losses c o).state.strength_current ∧
    ((u.take_losses c o).status = UnitStatus.destroyed ↔
      (u.take_losses c o).state.strength_current = 0) ∧
    (∀ (v : Unit) (t : Int), (v.recover t).status = v.status) := by
  refine ⟨?_, ?_, fun v t => rfl⟩
  · simp only [Unit.take_losses]
    exact le_max_left 0 _
  · simp only [Unit.take_losses]
    have hnonneg : (0 : Int) ≤ max 0 (u.state.strength_current - c) := le_max_left 0 _
    by_cases hz : (max 0 (u.state.strength_current - c) : Int) ≤ 0
    · have h0 : (max 0 (u.state.strength_current - c) : Int) = 0 := le_antisymm hz hnonneg
      simp [hz, h0]
    · rw [if_neg hz]
      have hne : (max 0 (u.state.strength_current - c) : Int) ≠ 0 := fun h => hz (le_of_eq h)
      simp only [hne, iff_false]
      split_ifs with hrout
      · simp
      · intro h
        have hsc := hinv h
        have : u.state.strength_current - c ≤ 0 := by omega
        exact hne (max_eq_left this)

/-- C10: the air-to-air count preparation is asymmetric between the
factions. When India attacks, the defending aircraft count is capped at
PAKISTAN_MAX_CAP_AIRCRAFT = 12; when Pakistan attacks, the defending
count is passed through uncapped. The attacking count is never capped.
At a requested defending count of 20 the two directions differ. -/
theorem air_to_air_defender_cap (oa : Option Int) (sa : Int) (od : Option Int) (sd : Int) :
    (airToAirCounts "india" oa sa od sd).2 ≤ 12 ∧
    (airToAirCounts "india" oa sa od sd).2 = min (od.getD sd) PAKISTAN_MAX_CAP_AIRCRAFT ∧
    (airToAirCounts "pakistan" oa sa od sd).2 = od.getD sd ∧
    (airToAirCounts "india" oa sa od sd).1 = oa.getD sa ∧
    (airToAirCounts "pakistan" oa sa od sd).1 = oa.getD sa ∧
    (airToAirCounts "india" none sa (some 20) sd).2 = 12 ∧
    (airToAirCounts "pakistan" none sa (some 20) sd).2 = 20 := by
  have hin : ∀ (x : Option Int) (y : Int) (z : Option Int) (w : Int),
      (airToAirCounts "india" x y z w).2 = min (z.getD w) 12 := by
    intro x y z w
    simp [airToAirCounts, PAKISTAN_MAX_CAP_AIRCRAFT]
  have hpk : ∀ (x : Option Int) (y : Int) (z : Option Int) (w : Int),
      (airToAirCounts "pakistan" x y z w).2 = z.getD w := by
    intro x y z w
    simp only [airToAirCounts, PAKISTAN_MAX_CAP_AIRCRAFT]
    rw [if_neg (by decide)]
  refine ⟨?_, ?_, hpk oa sa od sd, rfl, rfl, ?_, ?_⟩
  · rw [hin oa sa od sd]
    exact min_le_right _ _
  · exact hin oa sa od sd
  · rw [hin none sa (some 20) sd, Option.getD_some]
    decide
  · exact hpk none sa (some 20) sd

/-- A default type_data slice with no keys set, for concrete instances. -/
def emptyTD : TypeData := ⟨[], none, [], none, none, none, none⟩

/-- A healthy ten strong ground unit used as a concrete instance. -/
def sampleGroundUnit : Unit :=
  { id := "IN-DIV-1"
    faction := "india"
    category := UnitCategory.ground
    unit_type := "infantry_division"
    state := ⟨10, 10, 100, 85, 100, 100, 0, 0, -1⟩
    status := UnitStatus.ready
    type_data := emptyTD
    battery := none }

/-- C5 witness: the invariants evaluated on a concrete unit annihilated
by ten casualties. -/
theorem take_losses_invariants_witness :
    0 ≤ (sampleGroundUnit.take_losses 10 5).state.strength_current ∧
    ((sampleGroundUnit.take_losses 10 5).status = UnitStatus.destroyed ↔
      (sampleGroundUnit.take_losses 10 5).state.strength_current = 0) := by
  have h := take_losses_invariants sampleGroundUnit 10 5 (by decide)
    (fun h => absurd h (by decide))
  exact ⟨h.1, h.2.1⟩

/-- The seen set only grows under the destroyed unit VP pass. -/
theorem calcDestroyedVP_counted_mono (units : List Unit) :
    ∀ (s : VPState) (x : String), x ∈ s.counted → x ∈ (calcDestroyedVP s units).counted := by
  induction units with
  | nil => intro s x hx; exact hx
  | cons u rest ih =>
    intro s x hx
    simp only [calcDestroyedVP]
    split_ifs with h1 h2
    · exact ih _ x (List.mem_cons_of_mem _ hx)
    · exact ih _ x (List.mem_cons_of_mem _ hx)
    · exact ih _ x hx

/-- After one destroyed unit VP pass, every destroyed unit of the walked
list is in the seen set. -/
theorem calcDestroyedVP_counted_covers (units : List Unit) :
    ∀ (s : VPState) (u : Unit), u ∈ units → u.status = UnitStatus.destroyed →
      u.id ∈ (calcDestroyedVP s units).counted := by
  induction units with
  | nil => intro s u hm; cases hm
  | cons v rest ih =>
    intro s u hm hd
    rcases List.mem_cons.mp hm with rfl | hmem
    · simp only [calcDestroyedVP]
      split_ifs with h1 h2
      · exact calcDestroyedVP_counted_mono rest _ _ (List.mem_cons_self _ _)
      · exact calcDestroyedVP_counted_mono rest _ _ (List.mem_cons_self _ _)
      · have hin : u.id ∈ s.counted := by
          by_contra hno
          exact h1 ⟨hd, by simpa using hno⟩
        exact calcDestroyedVP_counted_mono rest _ _ hin
    · simp only [calcDestroyedVP]
      split_ifs with h1 h2 <;> exact ih _ u hmem hd

/-- If every destroyed unit of the list is already in the seen set, the
destroyed unit VP pass is the identity: no VP moves and the set is
unchanged. -/
theorem calcDestroyedVP_stable (units : List Unit) :
    ∀ (s : VPState),
      (∀ u, u ∈ units → u.status = UnitStatus.destroyed → u.id ∈ s.counted) →
      calcDestroyedVP s units = s := by
  induction units with
  | nil => intro s _; rfl
  | cons v rest ih =>
    intro s hall
    simp only [calcDestroyedVP]
    have hcond : ¬ (v.status = UnitStatus.destroyed ∧ ¬ s.counted.contains v.id) := by
      rintro ⟨hd, hnc⟩
      exact hnc (by simpa using hall v (List.mem_cons_self _ _) hd)
    rw [if_neg hcond]
    exact ih s fun u hm hd => hall u (List.mem_cons_of_mem _ hm) hd

/-- C7: the destroyed unit bonus pass of _calculate_victory_points is
idempotent thanks to the _destroyed_units_counted seen set: invoking the
victory point calculation a second time in the same turn leaves both
factions totals and the seen set unchanged, so no destroyed unit bonus
is ever awarded twice. -/
theorem destroyed_vp_idempotent (s : VPState) (units : List Unit) :
    calcDestroyedVP (calcDestroyedVP s units) units = calcDestroyedVP s units :=
  calcDestroyedVP_stable units _ fun u hm hd =>
    calcDestroyedVP_counted_covers units s u hm hd

/-- Invariant of the inner interception loop: hits move missiles one for
one from remaining to intercepted, at most one per iteration, and
neither counter moves otherwise. -/
theorem interceptInner_invariant (p : ℚ) :
    ∀ (n : Nat) (rtu rem int : Int) (r : RNG),
      (interceptInner p n rtu rem int r).1 + (interceptInner p n rtu rem int r).2.1
          = rem + int ∧
      rem - n ≤ (interceptInner p n rtu rem int r).1 ∧
      (interceptInner p n rtu rem int r).1 ≤ rem ∧
      int ≤ (interceptInner p n rtu rem int r).2.1 := by
  intro n
  induction n with
  | zero =>
    intro rtu rem int r
    simp [interceptInner]
  | succ m ih =>
    intro rtu rem int r
    simp only [interceptInner]
    split_ifs with h1 h2
    · refine ⟨rfl, ?_, le_refl _, le_refl _⟩
      show rem - ((m : Int) + 1) ≤ rem
      omega
    · have := ih (rtu - 2) (rem - 1) (int + 1) (hitCheck r p).2
      omega
    · have := ih (rtu - 2) rem int (hitCheck r p).2
      omega

/-- Invariant of the outer interception loop over the SAM list: the sum
of remaining and intercepted missiles is conserved, remaining never goes
negative when it starts non-negative, and intercepted never shrinks. -/
theorem interceptSams_invariant (speed : String) (det ew : ℚ) :
    ∀ (sams : List SamEntry) (rem int ru : Int) (r : RNG),
      (interceptSams speed det ew sams rem int ru r).1 +
        (interceptSams speed det ew sams rem int ru r).2.1 = rem + int ∧
      (0 ≤ rem → 0 ≤ (interceptSams speed det ew sams rem int ru r).1) ∧
      int ≤ (interceptSams speed det ew sams rem int ru r).2.1 := by
  intro sams
  induction sams with
  | nil =>
    intro rem int ru r
    simp [interceptSams]
  | cons sam rest ih =>
    intro rem int ru r
    simp only [interceptSams]
    split_ifs with h1 h2
    · exact ⟨rfl, fun h => h, le_refl _⟩
    · exact ih rem int ru r
    · have hinner := interceptInner_invariant
        (samEffectiveness (pyLower sam.type) speed * ew * pyMin 1 (det * (3/2)))
        rem.toNat (min sam.rounds (rem * 2)) rem int r
      have hcast : 0 ≤ rem → (rem.toNat : Int) = rem := fun h => Int.toNat_of_nonneg h
      have houter := ih
        (interceptInner (samEffectiveness (pyLower sam.type) speed * ew * pyMin 1 (det * (3/2)))
          rem.toNat (min sam.rounds (rem * 2)) rem int r).1
        (interceptInner (samEffectiveness (pyLower sam.type) speed * ew * pyMin 1 (det * (3/2)))
          rem.toNat (min sam.rounds (rem * 2)) rem int r).2.1
        (ru + min sam.rounds (rem * 2))
        (interceptInner (samEffectiveness (pyLower sam.type) speed * ew * pyMin 1 (det * (3/2)))
          rem.toNat (min sam.rounds (rem * 2)) rem int r).2.2
      omega

/-- C4: for every incoming missile count, missile stats, EW modifier,
SAM list and draw stream, the interception result satisfies
intercepted + leaked = incoming with both summands non-negative; the
incoming field echoes the input count. -/
theorem interception_conservation (n : Nat) (stats : MissileStats)
    (sams : List SamEntry) (ew : ℚ) (r : RNG) :
    (resolveInterception (n : Int) stats sams ew r).1.missiles_incoming = n ∧
    (resolveInterception (n : Int) stats sams ew r).1.missiles_intercepted +
      (resolveInterception (n : Int) stats sams ew r).1.missiles_leaked = n ∧
    0 ≤ (resolveInterception (n : Int) stats sams ew r).1.missiles_intercepted ∧
    0 ≤ (resolveInterception (n : Int) stats sams ew r).1.missiles_leaked := by
  have h := interceptSams_invariant stats.speed (stats.detectability / 100) ew
    sams (n : Int) 0 0 r
  have hleak := h.2.1 (Int.natCast_nonneg n)
  simp only [resolveInterception]
  refine ⟨trivial, ?_, ?_, ?_⟩ <;> omega

/-- Dict read on the phase_complete assoc list. -/
def lookupKey : List (String × Bool) → String → Option Bool
  | [], _ => none
  | kv :: rest, k => if kv.1 = k then some kv.2 else lookupKey rest k

/-- Setting a key marks that key true when it is present. -/
theorem setComplete_lookup_self (m : List (String × Bool)) (k : String) :
    (lookupKey m k).isSome → lookupKey (setComplete m k) k = some true := by
  induction m with
  | nil => intro h; simp [lookupKey] at h
  | cons kv rest ih =>
    intro h
    by_cases hk : kv.1 = k
    · have hs : setComplete (kv :: rest) k = (kv.1, true) :: setComplete rest k := by
        simp [setComplete, hk]
      rw [hs]
      simp [lookupKey, hk]
    · have hs : setComplete (kv :: rest) k = kv :: setComplete rest k := by
        simp [setComplete, hk]
      rw [hs]
      simp only [lookupKey] at h ⊢
      rw [if_neg hk] at h ⊢
      exact ih h

/-- Setting any key never clears a key already marked true. -/
theorem setComplete_lookup_preserve (m : List (String × Bool)) (k k2 : String) :
    lookupKey m k = some true → lookupKey (setComplete m k2) k = some true := by
  induction m with
  | nil => intro h; simp [lookupKey] at h
  | cons kv rest ih =>
    intro h
    have hs : setComplete (kv :: rest) k2
        = (if kv.1 = k2 then ((kv.1, true) : String × Bool) else kv) :: setComplete rest k2 := by
      simp [setComplete]
    rw [hs]
    have hfst : (if kv.1 = k2 then ((kv.1, true) : String × Bool) else kv).1 = kv.1 := by
      split <;> rfl
    simp only [lookupKey] at h ⊢
    rw [hfst]
    by_cases hk : kv.1 = k
    · rw [if_pos hk] at h ⊢
      split
      · rfl
      · exact h
    · rw [if_neg hk] at h ⊢
      exact ih h

/-- Setting a key preserves which keys are present. -/
theorem setComplete_lookup_isSome (m : List (String × Bool)) (k k2 : String) :
    (lookupKey m k).isSome → (lookupKey (setComplete m k2) k).isSome := by
  induction m with
  | nil => intro h; simp [lookupKey] at h
  | cons kv rest ih =>
    intro h
    have hs : setComplete (kv :: rest) k2
        = (if kv.1 = k2 then ((kv.1, true) : String × Bool) else kv) :: setComplete rest k2 := by
      simp [setComplete]
    rw [hs]
    have hfst : (if kv.1 = k2 then ((kv.1, true) : String × Bool) else kv).1 = kv.1 := by
      split <;> rfl
    simp only [lookupKey] at h ⊢
    rw [hfst]
    by_cases hk : kv.1 = k
    · rw [if_pos hk]
      rfl
    · rw [if_neg hk] at h ⊢
      exact ih h

/-- Folding execute_phase over a phase list concatenates each phase
resolver output once, in list order, threading the engine state. -/
theorem foldl_executePhase_reports {σ R : Type} (resolve : Phase → σ → σ × List R) :
    ∀ (ps : List Phase) (s : σ) (t : TurnRecord R),
      ((ps.foldl (fun st p => executePhase resolve p st) (s, t)).2.combat_reports)
        = t.combat_reports ++ phaseReportsSeq resolve s ps := by
  intro ps
  induction ps with
  | nil =>
    intro s t
    simp [phaseReportsSeq]
  | cons p rest ih =>
    intro s t
    simp only [List.foldl_cons, phaseReportsSeq]
    have hstep : executePhase resolve p (s, t)
        = ((resolve p s).1,
           { current_phase := p
             phase_complete := setComplete t.phase_complete p.value
             combat_reports := t.combat_reports ++ (resolve p s).2 }) := rfl
    rw [hstep, ih]
    simp

/-- Folding execute_phase over a phase list preserves keys, preserves
completed marks, and marks every phase of the list complete. -/
theorem foldl_executePhase_complete {σ R : Type} (resolve : Phase → σ → σ × List R) :
    ∀ (ps : List Phase) (st : σ × TurnRecord R) (p : Phase),
      ((lookupKey st.2.phase_complete p.value).isSome →
        ((lookupKey ((ps.foldl (fun st q => executePhase resolve q st) st).2.phase_complete)
            p.value).isSome)) ∧
      (lookupKey st.2.phase_complete p.value = some true →
        (lookupKey ((ps.foldl (fun st q => executePhase resolve q st) st).2.phase_complete)
            p.value = some true)) ∧
      (p ∈ ps → (lookupKey st.2.phase_complete p.value).isSome →
        (lookupKey ((ps.foldl (fun st q => executePhase resolve q st) st).2.phase_complete)
            p.value = some true)) := by
  intro ps
  induction ps with
  | nil =>
    intro st p
    refine ⟨fun h => h, fun h => h, fun hmem => absurd hmem (List.not_mem_nil p)⟩
  | cons q rest ih =>
    intro st p
    have hrec : (executePhase resolve q st).2.phase_complete
        = setComplete st.2.phase_complete q.value := rfl
    simp only [List.foldl_cons]
    refine ⟨?_, ?_, ?_⟩
    · intro h
      exact (ih (executePhase resolve q st) p).1
        (hrec ▸ setComplete_lookup_isSome _ _ _ h)
    · intro h
      exact (ih (executePhase resolve q st) p).2.1
        (hrec ▸ setComplete_lookup_preserve _ _ _ h)
    · intro hmem h
      rcases List.mem_cons.mp hmem with rfl | hmem2
      · exact (ih (executePhase resolve p st) p).2.1
          (hrec ▸ setComplete_lookup_self _ _ h)
      · exact (ih (executePhase resolve q st) p).2.2 hmem2
          (hrec ▸ setComplete_lookup_isSome _ _ _ h)

/-- C1: execute_full_turn runs exactly the eleven phases of PHASES, in
their fixed order with no repetition, dispatching each phase resolver
exactly once: the collected report list is the in-order concatenation of
the per-phase outputs under the threaded engine state, and on return the
per-phase completion map marks every phase of PHASES complete. -/
theorem execute_full_turn_phases {σ R : Type} (resolve : Phase → σ → σ × List R) (s0 : σ) :
    PHASES = [Phase.intelligence, Phase.missiles, Phase.electronic_warfare, Phase.air,
      Phase.drones, Phase.artillery, Phase.helicopters, Phase.ground,
      Phase.special_forces, Phase.logistics, Phase.recovery] ∧
    PHASES.Nodup ∧
    (∀ p : Phase, p ∈ PHASES →
      lookupKey (executeFullTurn resolve s0).2.phase_complete p.value = some true) ∧
    (executeFullTurn resolve s0).2.combat_reports = phaseReportsSeq resolve s0 PHASES := by
  refine ⟨rfl, by decide, ?_, ?_⟩
  · intro p hp
    have hstart : (startTurn R).phase_complete = initPhaseComplete := rfl
    have hsome : (lookupKey ((startTurn R).phase_complete) p.value).isSome := by
      rw [hstart]
      cases p <;> decide
    exact (foldl_executePhase_complete resolve PHASES (s0, startTurn R) p).2.2 hp hsome
  · have h := foldl_executePhase_reports resolve PHASES s0 (startTurn R)
    simpa [startTurn] using h

/-- C1 witness: on the trivial engine state with resolvers that produce
no reports, the full turn marks the missiles phase complete. -/
theorem execute_full_turn_phases_witness :
    Phase.missiles ∈ PHASES ∧
    lookupKey (executeFullTurn (σ := PUnit) (R := PUnit) (fun _ s => (s, []))
        PUnit.unit).2.phase_complete Phase.missiles.value = some true :=
  ⟨by decide,
   (execute_full_turn_phases (σ := PUnit) (R := PUnit) (fun _ s => (s, []))
      PUnit.unit).2.2.1 Phase.missiles (by decide)⟩

/-- Dedup keeps a subsequence of its input. -/
theorem dedupByType_sublist (xs : List SamEntry) :
    ∀ (seen : List String), (dedupByType seen xs).Sublist xs := by
  induction xs with
  | nil => intro seen; simp [dedupByType]
  | cons x rest ih =>
    intro seen
    simp only [dedupByType]
    split_ifs with h
    · exact (ih seen).cons x
    · exact (ih (x.type :: seen)).cons₂ x

/-- Dedup produces pairwise distinct types, none of them previously seen. -/
theorem dedupByType_nodup (xs : List SamEntry) :
    ∀ (seen : List String),
      ((dedupByType seen xs).map SamEntry.type).Nodup ∧
      ∀ e ∈ dedupByType seen xs, e.type ∉ seen := by
  induction xs with
  | nil => intro seen; simp [dedupByType]
  | cons x rest ih =>
    intro seen
    simp only [dedupByType]
    split_ifs with h
    · exact ih seen
    · have hx : x.type ∉ seen := by simpa using h
      refine ⟨?_, ?_⟩
      · simp only [List.map_cons, List.nodup_cons]
        refine ⟨?_, (ih (x.type :: seen)).1⟩
        intro hmem
        obtain ⟨e, he, hty⟩ := List.mem_map.mp hmem
        have := (ih (x.type :: seen)).2 e he
        exact this (hty ▸ List.mem_cons_self _ _)
      · intro e he
        rcases List.mem_cons.mp he with rfl | he2
        · exact hx
        · have := (ih (x.type :: seen)).2 e he2
          exact fun hc => this (List.mem_cons_of_mem _ hc)

/-- Every input entry whose type is not yet seen has its type
represented in the dedup output. -/
theorem dedupByType_covers (xs : List SamEntry) :
    ∀ (seen : List String) (e : SamEntry), e ∈ xs → e.type ∉ seen →
      e.type ∈ (dedupByType seen xs).map SamEntry.type := by
  induction xs with
  | nil => intro seen e he; cases he
  | cons x rest ih =>
    intro seen e he hns
    simp only [dedupByType]
    split_ifs with h
    · rcases List.mem_cons.mp he with rfl | he2
      · exact absurd (by simpa using h) hns
      · exact ih seen e he2 hns
    · simp only [List.map_cons]
      rcases List.mem_cons.mp he with rfl | he2
      · exact List.mem_cons_self _ _
      · by_cases hty : e.type = x.type
        · rw [hty]; exact List.mem_cons_self _ _
        · refine List.mem_cons_of_mem _ (ih (x.type :: seen) e he2 ?_)
          intro hc
          rcases List.mem_cons.mp hc with h1 | h2
          · exact hty h1
          · exact hns h2

/-- Dedup of a nonempty list with nothing seen is nonempty. -/
theorem dedupByType_ne_nil (x : SamEntry) (xs : List SamEntry) :
    dedupByType [] (x :: xs) ≠ [] := by
  simp [dedupByType]

/-- C6: the layered air defense list contains only directly protecting
SAMs plus at most the first long range and the first medium range entry
(as a subsequence of that combined list), carries no two entries of the
same system type, represents the type of every directly protecting SAM,
and has at most two entries beyond the protecting ones; when all three
of those buckets are empty it is the short range fallback of at most one
entry. -/
theorem layered_sam_selection (units : List Unit) (target_id faction : String) :
    (¬ ((classifySams target_id faction units).1 = [] ∧
        (classifySams target_id faction units).2.1 = [] ∧
        (classifySams target_id faction units).2.2.1 = []) →
      ((getSamsDefending units target_id faction).map SamEntry.type).Nodup ∧
      (getSamsDefending units target_id faction).Sublist
        ((classifySams target_id faction units).1 ++
         (classifySams target_id faction units).2.1.take 1 ++
         (classifySams target_id faction units).2.2.1.take 1) ∧
      (∀ e ∈ (classifySams target_id faction units).1,
        e.type ∈ (getSamsDefending units target_id faction).map SamEntry.type) ∧
      (getSamsDefending units target_id faction).length ≤
        (classifySams target_id faction units).1.length + 2) ∧
    (((classifySams target_id faction units).1 = [] ∧
      (classifySams target_id faction units).2.1 = [] ∧
      (classifySams target_id faction units).2.2.1 = []) →
      getSamsDefending units target_id faction
        = (classifySams target_id faction units).2.2.2.take 1 ∧
      (getSamsDefending units target_id faction).length ≤ 1) := by
  have hres : getSamsDefending units target_id faction
      = if dedupByType [] ((classifySams target_id faction units).1 ++
            (classifySams target_id faction units).2.1.take 1 ++
            (classifySams target_id faction units).2.2.1.take 1) ≠ [] then
          dedupByType [] ((classifySams target_id faction units).1 ++
            (classifySams target_id faction units).2.1.take 1 ++
            (classifySams target_id faction units).2.2.1.take 1)
        else (classifySams target_id faction units).2.2.2.take 1 := rfl
  constructor
  · intro hne
    have hcne : (classifySams target_id faction units).1 ++
        (classifySams target_id faction units).2.1.take 1 ++
        (classifySams target_id faction units).2.2.1.take 1 ≠ [] := by
      intro hc
      rcases List.append_eq_nil.mp hc with ⟨hc1, hc3⟩
      rcases List.append_eq_nil.mp hc1 with ⟨hp, hc2⟩
      refine hne ⟨hp, ?_, ?_⟩
      · rcases List.take_eq_nil_iff.mp hc2 with h | h
        · exact absurd h one_ne_zero
        · exact h
      · rcases List.take_eq_nil_iff.mp hc3 with h | h
        · exact absurd h one_ne_zero
        · exact h
    obtain ⟨y, ys, hys⟩ := List.exists_cons_of_ne_nil hcne
    have hdne : dedupByType [] ((classifySams target_id faction units).1 ++
        (classifySams target_id faction units).2.1.take 1 ++
        (classifySams target_id faction units).2.2.1.take 1) ≠ [] := by
      rw [hys]
      exact dedupByType_ne_nil y ys
    rw [hres, if_pos hdne]
    refine ⟨(dedupByType_nodup _ []).1, dedupByType_sublist _ [], ?_, ?_⟩
    · intro e he
      refine dedupByType_covers _ [] e ?_ (by simp)
      exact List.mem_append_left _ (List.mem_append_left _ he)
    · have hlen := (dedupByType_sublist ((classifySams target_id faction units).1 ++
          (classifySams target_id faction units).2.1.take 1 ++
          (classifySams target_id faction units).2.2.1.take 1) []).length_le
      have h1 : ((classifySams target_id faction units).2.1.take 1).length ≤ 1 :=
        List.length_take_le 1 _
      have h2 : ((classifySams target_id faction units).2.2.1.take 1).length ≤ 1 :=
        List.length_take_le 1 _
      simp only [List.length_append] at hlen
      omega
  · rintro ⟨h1, h2, h3⟩
    have hcombnil : (classifySams target_id faction units).1 ++
        (classifySams target_id faction units).2.1.take 1 ++
        (classifySams target_id faction units).2.2.1.take 1 = [] := by
      rw [h1, h2, h3]
      rfl
    have hdnil : dedupByType [] ((classifySams target_id faction units).1 ++
        (classifySams target_id faction units).2.1.take 1 ++
        (classifySams target_id faction units).2.2.1.take 1) = [] := by
      rw [hcombnil]
      rfl
    rw [hres, if_neg (fun hne => hne hdnil)]
    exact ⟨rfl, List.length_take_le 1 _⟩

/-- A combat effective air defense unit assigned to protect target T1,
for the concrete layered defense instance. -/
def sampleSamUnit : Unit :=
  { id := "PK-SAM-1"
    faction := "pakistan"
    category := UnitCategory.air_defense
    unit_type := "hq9"
    state := ⟨4, 4, 100, 85, 100, 100, 0, 0, -1⟩
    status := UnitStatus.ready
    type_data := { emptyTD with protecting := ["T1"], missiles_available := some 12 }
    battery := none }

/-- C6 witness: the layered selection evaluated on one protecting SAM. -/
theorem layered_sam_selection_witness :
    ((getSamsDefending [sampleSamUnit] "T1" "pakistan").map SamEntry.type).Nodup ∧
    (getSamsDefending [sampleSamUnit] "T1" "pakistan").Sublist
      ((classifySams "T1" "pakistan" [sampleSamUnit]).1 ++
       (classifySams "T1" "pakistan" [sampleSamUnit]).2.1.take 1 ++
       (classifySams "T1" "pakistan" [sampleSamUnit]).2.2.1.take 1) ∧
    (getSamsDefending [sampleSamUnit] "T1" "pakistan").length ≤
      (classifySams "T1" "pakistan" [sampleSamUnit]).1.length + 2 := by
  have h := (layered_sam_selection [sampleSamUnit] "T1" "pakistan").1 (by decide)
  exact ⟨h.1, h.2.1, h.2.2.2⟩

/-- The engagement loop of one SAM battery: losses only grow, grow by at
most one per engagement, and aircraft decrease exactly by the losses. -/
theorem samEngageLoop_delta (pk : ℚ) :
    ∀ (n : Nat) (count losses : Int) (r : RNG),
      losses ≤ (samEngageLoop pk n count losses r).2.1 ∧
      (samEngageLoop pk n count losses r).2.1 - losses ≤ n ∧
      (samEngageLoop pk n count losses r).1
        = count - ((samEngageLoop pk n count losses r).2.1 - losses) := by
  intro n
  induction n with
  | zero =>
    intro count losses r
    simp [samEngageLoop]
  | succ m ih =>
    intro count losses r
    simp only [samEngageLoop]
    split_ifs with h
    · have := ih (count - 1) (losses + 1) (hitCheck r pk).2
      omega
    · have := ih count losses (hitCheck r pk).2
      omega

/-- The SAM ingress phase stops immediately once no aircraft remain. -/
theorem samPhaseAir_stop (stats : TypeData) (w : ℚ) :
    ∀ (l : List SamEntry) (count losses : Int) (r : RNG), count ≤ 0 →
      samPhaseAir stats w l count losses r = (count, losses, r) := by
  intro l count losses r h
  cases l with
  | nil => rfl
  | cons sam rest =>
    simp only [samPhaseAir]
    rw [if_pos h]

/-- Sequential engagement: running the SAM ingress phase over a
concatenated coverage list equals running it over the first part and
feeding the surviving aircraft, accumulated losses and advanced draw
stream into the second part. -/
theorem samPhaseAir_append (stats : TypeData) (w : ℚ) :
    ∀ (l1 l2 : List SamEntry) (count losses : Int) (r : RNG),
      samPhaseAir stats w (l1 ++ l2) count losses r
        = samPhaseAir stats w l2 (samPhaseAir stats w l1 count losses r).1
            (samPhaseAir stats w l1 count losses r).2.1
            (samPhaseAir stats w l1 count losses r).2.2 := by
  intro l1
  induction l1 with
  | nil =>
    intro l2 count losses r
    simp [samPhaseAir]
  | cons sam rest ih =>
    intro l2 count losses r
    by_cases h : count ≤ 0
    · rw [samPhaseAir_stop stats w ((sam :: rest) ++ l2) count losses r h,
          samPhaseAir_stop stats w (sam :: rest) count losses r h]
      exact (samPhaseAir_stop stats w l2 count losses r h).symm
    · simp only [List.cons_append, samPhaseAir]
      rw [if_neg h, if_neg h]
      exact ih l2 _ _ _

/-- Each single SAM battery engages at most once per aircraft present:
the losses it adds never exceed the aircraft count it faced. -/
theorem samPhaseAir_single (stats : TypeData) (w : ℚ) (sam : SamEntry)
    (count losses : Int) (r : RNG) (hc : 0 ≤ count) :
    (samPhaseAir stats w [sam] count losses r).2.1 - losses ≤ count := by
  simp only [samPhaseAir]
  split_ifs with h
  · show losses - losses ≤ count
    omega
  · dsimp only
    have hloop := samEngageLoop_delta
      (sam.effectiveness.getD (3/10) * w * (1 - stats.ew_suite.getD 50 / 200)
        * (1 - stats.stealth.getD 15 / 200))
      ((min (min (Int.ediv sam.rounds 2) count) count).toNat) count losses r
    have hcap : ((min (min (Int.ediv sam.rounds 2) count) count).toNat : Int) ≤ count := by
      rcases le_or_lt (min (min (Int.ediv sam.rounds 2) count) count) 0 with h0 | h0
      · rw [Int.toNat_of_nonpos h0]
        simpa using hc
      · rw [Int.toNat_of_nonneg (le_of_lt h0)]
        exact min_le_right _ _
    omega

/-- C9: strikes with a standoff weapon bypass the air defense phase
entirely: the outcome is identical for any SAM coverage list and records
zero aircraft lost to SAMs. Strikes without a standoff weapon record
exactly the losses of the sequential SAM ingress fold, which walks the
coverage list in order (splitting at any point composes) and engages
each battery at most once per aircraft present. -/
theorem standoff_bypass (striker : AirMission) (stats : TypeData) (tt : String)
    (td : ℚ) (sams : List SamEntry) (w : ℚ) (r : RNG) :
    (hasStandoff stats = true →
      AirCombat.resolve_strike striker stats tt td sams w r
        = AirCombat.resolve_strike striker stats tt td [] w r ∧
      (AirCombat.resolve_strike striker stats tt td sams w r).1.attacker_losses
        = [("aircraft", (0 : ℚ))]) ∧
    (hasStandoff stats = false →
      (AirCombat.resolve_strike striker stats tt td sams w r).1.attacker_losses
        = [("aircraft",
            (((samPhaseAir stats w sams striker.aircraft_count 0 r).2.1 : Int) : ℚ))]) ∧
    (∀ (l1 l2 : List SamEntry) (count losses : Int) (r2 : RNG),
      samPhaseAir stats w (l1 ++ l2) count losses r2
        = samPhaseAir stats w l2 (samPhaseAir stats w l1 count losses r2).1
            (samPhaseAir stats w l1 count losses r2).2.1
            (samPhaseAir stats w l1 count losses r2).2.2) ∧
    (∀ (sam : SamEntry) (count losses : Int) (r2 : RNG), 0 ≤ count →
      (samPhaseAir stats w [sam] count losses r2).2.1 - losses ≤ count) := by
  refine ⟨?_, ?_, samPhaseAir_append stats w,
    fun sam count losses r2 hc => samPhaseAir_single stats w sam count losses r2 hc⟩
  · intro h
    constructor
    · simp [AirCombat.resolve_strike, h]
    · simp [AirCombat.resolve_strike, h]
  · intro h
    simp [AirCombat.resolve_strike, h]

/-- Squadron stats carrying a standoff weapon, for the concrete instance. -/
def sampleStandoffStats : TypeData :=
  { emptyTD with weapons := ["scalp"], ew_suite := some 60, stealth := some 20 }

/-- A four aircraft strike mission, for the concrete instance. -/
def sampleStrikeMission : AirMission :=
  { squadron_id := "IN-SQN-1"
    mission_type := "strike"
    aircraft_count := 4
    aircraft_type := "rafale"
    target_id := some "PK-AB-1" }

/-- A SAM coverage entry as the air resolver reads it. -/
def sampleCoverageSam : SamEntry :=
  { type := "hq9", rounds := 12, ready := true, effectiveness := some (4/10) }

/-- C9 witness: with a scalp armed squadron the strike outcome ignores
the SAM coverage and records zero aircraft losses. -/
theorem standoff_bypass_witness :
    AirCombat.resolve_strike sampleStrikeMission sampleStandoffStats "ground" 50
        [sampleCoverageSam] 1 ⟨fun _ => 1, 0⟩
      = AirCombat.resolve_strike sampleStrikeMission sampleStandoffStats "ground" 50
        [] 1 ⟨fun _ => 1, 0⟩ ∧
    (AirCombat.resolve_strike sampleStrikeMission sampleStandoffStats "ground" 50
        [sampleCoverageSam] 1 ⟨fun _ => 1, 0⟩).1.attacker_losses
      = [("aircraft", (0 : ℚ))] :=
  (standoff_bypass sampleStrikeMission sampleStandoffStats "ground" 50
    [sampleCoverageSam] 1 ⟨fun _ => 1, 0⟩).1 (by decide)

/-- The missile strike outcome mapping never reaches the sixth tier. -/
theorem missileStrikeResult_ne_dd (dr : ℚ) (hits : Int) :
    missileStrikeResult dr hits ≠ CombatResult.decisive_defeat := by
  unfold missileStrikeResult
  split_ifs <;> decide

/-- C8: with an empty defending SAM list every incoming missile leaks
(four missiles in, zero intercepted, four leaked, for any stats, EW
modifier and draw stream); whenever a strike against hardness 50 ends
with total damage 80 (ratio 1.6) it is classified decisive-victory; and
the missile strike classification never returns decisive-defeat. -/
theorem missile_scenario :
    (∀ (stats : MissileStats) (ew : ℚ) (r : RNG),
      (resolveInterception 4 stats [] ew r).1.missiles_leaked = 4 ∧
      (resolveInterception 4 stats [] ew r).1.missiles_intercepted = 0) ∧
    (∀ (strike : MissileStrike) (sams : List SamEntry) (w ew2 : ℚ) (r2 : RNG),
      (MissileCombat.resolve_strike strike sams 50 w ew2 r2).1.defender_damage = 80 →
      (MissileCombat.resolve_strike strike sams 50 w ew2 r2).1.result
        = CombatResult.decisive_victory) ∧
    (∀ (strike : MissileStrike) (sams : List SamEntry) (hard w2 ew2 : ℚ) (r2 : RNG),
      (MissileCombat.resolve_strike strike sams hard w2 ew2 r2).1.result
        ≠ CombatResult.decisive_defeat) := by
  refine ⟨?_, ?_, ?_⟩
  · intro stats ew r
    exact ⟨rfl, rfl⟩
  · intro strike sams w ew2 r2 hdmg
    simp only [MissileCombat.resolve_strike] at hdmg ⊢
    rw [hdmg]
    simp only [missileStrikeResult]
    rw [if_pos (by norm_num [pyMax])]
  · intro strike sams hard w2 ew2 r2
    simp only [MissileCombat.resolve_strike]
    exact missileStrikeResult_ne_dd _ _

/-- The nirbhay strike of four missiles used as the concrete instance. -/
def sampleMissileStrike : MissileStrike :=
  { battery_id := "IN-BM-1"
    target_id := "PK-AB-1"
    target_type := "sam_site"
    missiles_fired := 4
    missile_type := "nirbhay" }

/-- A draw stream under which the first missile hits with a mean damage
roll and the other three miss. -/
def sampleStream : RNG :=
  ⟨fun n => if n = 0 then 0 else if n = 1 then 1/2 else 1, 0⟩

/-- C8 witness: the scenario evaluated concretely: four nirbhay missiles,
no SAMs, hardness 50, weather 1, EW 1; all four leak, the total damage
is exactly 80 and the strike is classified decisive-victory. -/
theorem missile_scenario_witness :
    (resolveInterception 4 ((MISSILE_STATS "nirbhay").getD missileDefaultStats)
        [] 1 sampleStream).1.missiles_leaked = 4 ∧
    (MissileCombat.resolve_strike sampleMissileStrike [] 50 1 1 sampleStream).1.defender_damage
      = 80 ∧
    (MissileCombat.resolve_strike sampleMissileStrike [] 50 1 1 sampleStream).1.result
      = CombatResult.decisive_victory := by
  have hd : (MissileCombat.resolve_strike sampleMissileStrike [] 50 1 1
      sampleStream).1.defender_damage = 80 := by decide
  exact ⟨(missile_scenario.1 ((MISSILE_STATS "nirbhay").getD missileDefaultStats)
      1 sampleStream).1,
    hd, missile_scenario.2.1 sampleMissileStrike [] 1 1 sampleStream hd⟩

/-- A ready missile battery of India with twelve rounds, for the
concrete unknown-id instances. -/
def sampleBattery : Unit :=
  { id := "IN-BM-7"
    faction := "india"
    category := UnitCategory.missile
    unit_type := "brahmos_bty"
    state := ⟨4, 4, 100, 85, 100, 100, 0, 0, -1⟩
    status := UnitStatus.ready
    type_data := emptyTD
    battery := some ⟨"brahmos", 12, 4, 0⟩ }

/-- A missile strike order naming a battery id absent from the table. -/
def sampleUnknownOrder : MissileOrder :=
  ⟨some "NO-SUCH-ID", some "PK-TGT-1", some 4, some "sam_site"⟩

/-- An air mission naming a squadron id absent from the table. -/
def sampleUnknownAirOrder : AirOrder :=
  ⟨some "NO-SUCH-SQN", some "strike", none, some 4, some "PK-AB-1", none, none⟩

/-- C2 counterexample: a missile strike order with an unknown battery id
is not skipped when the faction has any missile unit able to fire: the
resolver falls back to that unit, produces a report, and mutates state
(the battery inventory drops from twelve to eight). -/
theorem missile_unknown_battery_fallback :
    getUnit [sampleBattery] "NO-SUCH-ID" = none ∧
    (resolveMissileStrike [sampleBattery] sampleUnknownOrder "india" 1 [] 5
      ⟨fun _ => 1, 0⟩).isSome = true ∧
    ((resolveMissileStrike [sampleBattery] sampleUnknownOrder "india" 1 [] 5
        ⟨fun _ => 1, 0⟩).map
      fun out => out.2.1.map fun u => (u.battery.map Battery.missiles_remaining).getD 0)
      = some [8] := by
  refine ⟨by decide, by decide, by decide⟩

/-- C2 (amended): an air strike whose squadron id is unknown is silently
skipped with no report and no state change; a missile strike whose exact
battery id is unknown is skipped only when no friendly missile unit can
fire, and otherwise resolves through the fallback battery. -/
theorem unknown_unit_skip (units : List Unit) (mission : AirOrder)
    (strike : MissileOrder) (faction : String) (w : ℚ)
    (ew : List (String × ℚ)) (turn : Int) (r : RNG) :
    (getUnit units (mission.squadron_id.getD "") = none →
      resolveAirStrike units mission faction w turn r = none) ∧
    (getUnit units (strike.battery_id.getD "") = none →
      (∀ u ∈ units, ¬ (u.category = UnitCategory.missile ∧ u.faction = faction ∧
          u.hasCanFire ∧ u.can_fire)) →
      resolveMissileStrike units strike faction w ew turn r = none) ∧
    (getUnit units (strike.battery_id.getD "") = none →
      (∃ u, u ∈ units ∧ u.category = UnitCategory.missile ∧ u.faction = faction ∧
          u.hasCanFire ∧ u.can_fire) →
      resolveMissileStrike units strike faction w ew turn r ≠ none) := by
  refine ⟨?_, ?_, ?_⟩
  · intro h
    simp [resolveAirStrike, h]
  · intro h hnone
    have hsel : selectBattery units (strike.battery_id.getD "") faction = none := by
      simp only [selectBattery, h]
      rw [List.find?_eq_none]
      intro u hu
      have hmem := (List.mem_filter.mp hu).1
      have hpred := (List.mem_filter.mp hu).2
      simp only [decide_eq_true_eq] at hpred
      simp only [Bool.and_eq_true, decide_eq_true_eq]
      intro hc
      exact hnone u hmem ⟨hpred.1, hpred.2, hc.1, hc.2⟩
    simp [resolveMissileStrike, hsel]
  · intro h hex
    obtain ⟨u, hu, hcat, hfac, hcf, hfire⟩ := hex
    have hfind : (List.find? (fun mu => mu.hasCanFire ∧ mu.can_fire)
        (units.filter fun v =>
          v.category = UnitCategory.missile ∧ v.faction = faction)).isSome := by
      rw [List.find?_isSome]
      refine ⟨u, List.mem_filter.mpr ⟨hu, ?_⟩, ?_⟩
      · simp [hcat, hfac]
      · simp [hcf, hfire]
    obtain ⟨b, hb⟩ := Option.isSome_iff_exists.mp hfind
    have hq := List.find?_some hb
    simp only [Bool.and_eq_true, decide_eq_true_eq] at hq
    have hsel : selectBattery units (strike.battery_id.getD "") faction = some b := by
      simp only [selectBattery, h]
      exact hb
    simp [resolveMissileStrike, hsel, hq.1, hq.2]

/-- C2 witness: the amended behaviour evaluated concretely: with an
empty table both mission kinds are skipped; with a fireable friendly
battery present the unknown-id missile strike is not skipped. -/
theorem unknown_unit_skip_witness :
    resolveAirStrike [] sampleUnknownAirOrder "india" 1 5 ⟨fun _ => 1, 0⟩ = none ∧
    resolveMissileStrike [] sampleUnknownOrder "india" 1 [] 5 ⟨fun _ => 1, 0⟩ = none ∧
    resolveMissileStrike [sampleBattery] sampleUnknownOrder "india" 1 [] 5
      ⟨fun _ => 1, 0⟩ ≠ none := by
  refine ⟨?_, ?_, ?_⟩
  · exact (unknown_unit_skip [] sampleUnknownAirOrder sampleUnknownOrder "india" 1 [] 5
      ⟨fun _ => 1, 0⟩).1 (by decide)
  · exact (unknown_unit_skip [] sampleUnknownAirOrder sampleUnknownOrder "india" 1 [] 5
      ⟨fun _ => 1, 0⟩).2.1 (by decide) (by simp)
  · exact (unknown_unit_skip [sampleBattery] sampleUnknownAirOrder sampleUnknownOrder
      "india" 1 [] 5 ⟨fun _ => 1, 0⟩).2.2 (by decide)
      ⟨sampleBattery, by simp, by decide, by decide, by decide, by decide⟩

end Wargame
